import Mathlib

/-!
Verification of the metadata-driven schema description and DDL synthesis
engine of the mcp-cassandra repository.

Embedded source functions:
* `DescribeTableTool.getColumnTypeString` (type resolution over raw,
  possibly nested, duck-typed type descriptors);
* `ShowTableSchemaTool.execute` (key classification, table-option
  formatting, and CREATE TABLE text synthesis).

The JavaScript values that flow through these functions are modelled by
explicit inductive types; JavaScript truthiness, `Object.entries`
iteration order and the stable `Array.prototype.sort` (ES2019) are
modelled explicitly where the source relies on them.
-/

/--
A raw column-type descriptor as received by
`DescribeTableTool.getColumnTypeString` (src/src/tools/DisconnectTool.ts,
first DescribeTableTool variant, lines 137-199).

Modelling notes:
* `nullish` stands for the JavaScript values `null` / `undefined`
  (falsy, not a string, not an object for the purposes of the function).
* `str s` is a JavaScript string primitive.
* `obj code name keyType valueType elementType arrInfo typesInfo`
  is a JavaScript object.  The source reads `type.code`, `type.name`,
  `type.info.keyType`, `type.info.valueType`, `type.info.elementType`,
  `Array.isArray(type.info)` and `type.info.types`; the fields of the
  nested `info` object are flattened into the constructor because an
  absent `info` and an `info` with none of the recognized fields are
  observationally identical to the function (every `type.info &&  ...`
  guard fails in both cases).  `arrInfo = some es` models `type.info`
  itself being a JavaScript array with elements `es`; `typesInfo = some ts`
  models `type.info.types` being an array with elements `ts`.
-/
inductive RawType : Type where
  | nullish : RawType
  | str : String → RawType
  | obj : Option Int → Option String → Option RawType → Option RawType →
      Option RawType → Option (List RawType) → Option (List RawType) → RawType
deriving Repr

/-- JavaScript truthiness of a raw descriptor value: `null`/`undefined`
and the empty string are falsy, every object is truthy. -/
def RawType.truthy : RawType → Bool
  | .nullish => false
  | .str s => !(s == "")
  | .obj _ _ _ _ _ _ _ => true

/-- Truthiness of an optional field (`undefined` when absent). -/
def optTruthy : Option RawType → Bool
  | none => false
  | some t => t.truthy

/-- Truthiness of the `type.name` field (a string field). -/
def nameTruthy : Option String → Bool
  | none => false
  | some n => !(n == "")

/--
The code→name table the source iterates with
`Object.entries(types.dataTypes)`.  Modelled from the spec: the fixed
code→name table is the `cassandra-driver` `types.dataTypes` constant,
which is not part of this repository; its entries (insertion order) are
reproduced here.
-/
def dataTypes : List (String × Int) :=
  [("custom", 0x0000), ("ascii", 0x0001), ("bigint", 0x0002),
   ("blob", 0x0003), ("boolean", 0x0004), ("counter", 0x0005),
   ("decimal", 0x0006), ("double", 0x0007), ("float", 0x0008),
   ("int", 0x0009), ("text", 0x000a), ("timestamp", 0x000b),
   ("uuid", 0x000c), ("varchar", 0x000d), ("varint", 0x000e),
   ("timeuuid", 0x000f), ("inet", 0x0010), ("date", 0x0011),
   ("time", 0x0012), ("smallint", 0x0013), ("tinyint", 0x0014),
   ("duration", 0x0015), ("list", 0x0020), ("map", 0x0021),
   ("set", 0x0022), ("udt", 0x0030), ("tuple", 0x0031)]

/-- Charwise ASCII lowercasing; models `String.prototype.toLowerCase`
on the ASCII type names of the code table. -/
def lowerString (s : String) : String := String.mk (s.data.map Char.toLower)

/-- The `type.code` branch of `getColumnTypeString`: scan the entries of
the code table in order; on the first entry whose code equals the given
code return its name lowercased; otherwise return `type_<code>`. -/
def dataTypeName (c : Int) : String :=
  match dataTypes.find? (fun p => p.2 == c) with
  | some p => lowerString p.1
  | none => "type_" ++ toString c

/-- The structural shape the `type.info` guard chain of
`getColumnTypeString` recognizes, probed in source order:
key/value pair, element, array-shaped info, named `types` sequence. -/
inductive InfoShape : Type where
  | mapKV : RawType → RawType → InfoShape
  | listElem : RawType → InfoShape
  | setArr : List RawType → InfoShape
  | tupleSeq : List RawType → InfoShape
  | noShape : InfoShape
deriving Repr

/-- Guard `Array.isArray(type.info)` then `Array.isArray(type.info.types)`. -/
def shapeAfterList (arrInfo typesInfo : Option (List RawType)) : InfoShape :=
  match arrInfo with
  | some es => .setArr es
  | none =>
    match typesInfo with
    | some ts => .tupleSeq ts
    | none => .noShape

/-- Guard `type.info && type.info.elementType`, then fall through. -/
def shapeAfterMap (elementType : Option RawType)
    (arrInfo typesInfo : Option (List RawType)) : InfoShape :=
  match elementType with
  | some e => if e.truthy then .listElem e else shapeAfterList arrInfo typesInfo
  | none => shapeAfterList arrInfo typesInfo

/-- Guard `type.info && type.info.keyType && type.info.valueType`,
then fall through; mirrors the guard chain of the source lines 169-190. -/
def infoShape (keyType valueType elementType : Option RawType)
    (arrInfo typesInfo : Option (List RawType)) : InfoShape :=
  match keyType, valueType with
  | some k, some v =>
    if k.truthy && v.truthy then .mapKV k v
    else shapeAfterMap elementType arrInfo typesInfo
  | some _, none => shapeAfterMap elementType arrInfo typesInfo
  | none, _ => shapeAfterMap elementType arrInfo typesInfo

/-- Inversion: a `mapKV` shape can only come from present, truthy
key/value sub-descriptors; used for termination of the renderer. -/
theorem infoShape_mapKV {kt vt et : Option RawType}
    {a t : Option (List RawType)} {k v : RawType}
    (h : infoShape kt vt et a t = .mapKV k v) :
    kt = some k ∧ vt = some v := by
  rcases kt with _ | k0 <;> rcases vt with _ | v0 <;>
    rcases et with _ | e0 <;> rcases a with _ | es0 <;> rcases t with _ | ts0 <;>
    simp only [infoShape, shapeAfterMap, shapeAfterList] at h <;>
    (try split_ifs at h) <;> simp_all

/-- Inversion: a `listElem` shape can only come from a present, truthy
element sub-descriptor. -/
theorem infoShape_listElem {kt vt et : Option RawType}
    {a t : Option (List RawType)} {e : RawType}
    (h : infoShape kt vt et a t = .listElem e) :
    et = some e := by
  rcases kt with _ | k0 <;> rcases vt with _ | v0 <;>
    rcases et with _ | e0 <;> rcases a with _ | es0 <;> rcases t with _ | ts0 <;>
    simp only [infoShape, shapeAfterMap, shapeAfterList] at h <;>
    (try split_ifs at h) <;> simp_all

/-- Inversion: a `setArr` shape can only come from an array-shaped info. -/
theorem infoShape_setArr {kt vt et : Option RawType}
    {a t : Option (List RawType)} {es : List RawType}
    (h : infoShape kt vt et a t = .setArr es) :
    a = some es := by
  rcases kt with _ | k0 <;> rcases vt with _ | v0 <;>
    rcases et with _ | e0 <;> rcases a with _ | es0 <;> rcases t with _ | ts0 <;>
    simp only [infoShape, shapeAfterMap, shapeAfterList] at h <;>
    (try split_ifs at h) <;> simp_all

/-- Inversion: a `tupleSeq` shape can only come from a present
`types` array. -/
theorem infoShape_tupleSeq {kt vt et : Option RawType}
    {a t : Option (List RawType)} {ts : List RawType}
    (h : infoShape kt vt et a t = .tupleSeq ts) :
    t = some ts := by
  rcases kt with _ | k0 <;> rcases vt with _ | v0 <;>
    rcases et with _ | e0 <;> rcases a with _ | es0 <;> rcases t with _ | ts0 <;>
    simp only [infoShape, shapeAfterMap, shapeAfterList] at h <;>
    (try split_ifs at h) <;> simp_all

/-- Upper bound on the size of a probed shape in terms of the probed
fields; justifies termination of the renderer. -/
theorem infoShape_sizeOf_le (kt vt et : Option RawType)
    (a t : Option (List RawType)) :
    sizeOf (infoShape kt vt et a t) ≤
      sizeOf kt + sizeOf vt + sizeOf et + sizeOf a + sizeOf t := by
  rcases kt with _ | k0 <;> rcases vt with _ | v0 <;>
    rcases et with _ | e0 <;> rcases a with _ | es0 <;> rcases t with _ | ts0 <;>
    simp only [infoShape, shapeAfterMap, shapeAfterList] <;>
    (try split_ifs) <;> simp <;> omega

mutual

/--
Embedding of `DescribeTableTool.getColumnTypeString`
(src/src/tools/DisconnectTool.ts, first DescribeTableTool variant,
lines 137-199), in source order:

1. `if (!type) return 'unknown'` — falsy descriptors;
2. `typeof type === 'string'` — string descriptors returned directly;
3. `type.code !== undefined` — code lookup through the fixed table;
4. `if (type.name)` — truthy name field returned directly;
5. the `type.info` guard chain (map, list, set, tuple), probed by
   `infoShape` and rendered by `renderShape`, recursing into
   sub-descriptors;
6. `return String(type)` — for a plain object the JavaScript string
   conversion is the literal `[object Object]`.
-/
def getColumnTypeString : RawType → String
  | .nullish => "unknown"
  | .str s => if s = "" then "unknown" else s
  | .obj (some c) _ _ _ _ _ _ => dataTypeName c
  | .obj none (some n) kt vt et arr tps =>
    if n = "" then renderShape (infoShape kt vt et arr tps) else n
  | .obj none none kt vt et arr tps => renderShape (infoShape kt vt et arr tps)
termination_by t => sizeOf t
decreasing_by
  all_goals simp_wf
  · have h := infoShape_sizeOf_le kt vt et arr tps
    omega
  · have h := infoShape_sizeOf_le kt vt et arr tps
    omega

/-- Renders the recognized `type.info` shape, recursing into the
sub-descriptors exactly as the guard-chain branches of the source do;
`info[0]` of an empty array-shaped info is `undefined`, modelled by
`RawType.nullish`. -/
def renderShape : InfoShape → String
  | .mapKV k v =>
    "map<" ++ getColumnTypeString k ++ ", " ++ getColumnTypeString v ++ ">"
  | .listElem e => "list<" ++ getColumnTypeString e ++ ">"
  | .setArr [] => "set<" ++ getColumnTypeString RawType.nullish ++ ">"
  | .setArr (e :: _) => "set<" ++ getColumnTypeString e ++ ">"
  | .tupleSeq ts =>
    "tuple<" ++
      String.intercalate ", " (ts.attach.map fun x => getColumnTypeString x.1)
      ++ ">"
  | .noShape => "[object Object]"
termination_by s => sizeOf s
decreasing_by
  all_goals simp_wf
  all_goals try (have hm := List.sizeOf_lt_of_mem x.2)
  all_goals omega

end

/-- Every string `s ++ t` with a nonempty left part is nonempty. -/
theorem append_ne_empty_left {s t : String} (h : s ≠ "") : s ++ t ≠ "" := by
  intro hc
  apply h
  have hd := congrArg String.data hc
  rw [String.data_append] at hd
  simp only [List.append_eq_nil] at hd
  cases s
  simp_all

/-- Every rendered shape is a nonempty string: each branch returns
either a bracket-prefixed string or a fixed nonempty literal. -/
theorem renderShape_ne_empty : ∀ s : InfoShape, renderShape s ≠ "" := by
  intro s
  match s with
  | .mapKV k v =>
    rw [renderShape]
    repeat' apply append_ne_empty_left
    decide
  | .listElem e =>
    rw [renderShape]
    repeat' apply append_ne_empty_left
    decide
  | .setArr [] =>
    rw [renderShape]
    repeat' apply append_ne_empty_left
    decide
  | .setArr (e :: es) =>
    rw [renderShape]
    repeat' apply append_ne_empty_left
    decide
  | .tupleSeq ts =>
    rw [renderShape]
    repeat' apply append_ne_empty_left
    decide
  | .noShape =>
    rw [renderShape]
    decide

/-- Every output of the type renderer is a nonempty string: each branch
of `getColumnTypeString` returns either a fixed nonempty literal, a
nonempty input string, a nonempty table name, or a rendered shape. -/
theorem getColumnTypeString_ne_empty : ∀ t : RawType, getColumnTypeString t ≠ "" := by
  intro t
  match t with
  | .nullish => rw [getColumnTypeString]; decide
  | .str s =>
    rw [getColumnTypeString]
    by_cases h : s = "" <;> simp [h]
  | .obj (some c) name kt vt et arr tps =>
    rw [getColumnTypeString]
    unfold dataTypeName
    split
    · next p hp =>
      have hmem := List.mem_of_find?_eq_some hp
      have hall : ∀ q ∈ dataTypes, lowerString q.1 ≠ "" := by decide
      exact hall p hmem
    · exact append_ne_empty_left (by decide)
  | .obj none (some n) kt vt et arr tps =>
    rw [getColumnTypeString]
    by_cases h : n = ""
    · rw [if_pos h]
      exact renderShape_ne_empty _
    · rw [if_neg h]
      exact h
  | .obj none none kt vt et arr tps =>
    rw [getColumnTypeString]
    exact renderShape_ne_empty _

/-- C8: for every raw type descriptor, rendering the resolved type is
deterministic (it is a pure function of the descriptor) and idempotent:
resolving the rendered name again — a plain string resolves to itself —
yields the identical rendering.  Stated for all raw descriptors, which
includes the five resolvable shapes of the claim; it holds because every
rendering is a nonempty string and the resolver returns nonempty string
descriptors unchanged. -/
theorem render_resolve_idempotent (raw : RawType) :
    getColumnTypeString (RawType.str (getColumnTypeString raw)) =
      getColumnTypeString raw := by
  rw [getColumnTypeString, if_neg (getColumnTypeString_ne_empty raw)]

/-- C2 counterexample: the empty JavaScript object is a raw type
descriptor with none of the recognized shapes (not a string, no code,
no name, no key/value, no element, no array info, no types sequence),
yet resolution returns `String({})`, the literal `[object Object]`,
not `unknown`. -/
theorem unrecognized_object_not_unknown :
    getColumnTypeString (RawType.obj none none none none none none none) =
        "[object Object]" ∧
      "[object Object]" ≠ "unknown" := by
  constructor
  · rw [getColumnTypeString]
    simp [infoShape, shapeAfterMap, shapeAfterList, renderShape]
  · decide

/-- C2 amended: resolution is total and returns `unknown` exactly for
the falsy descriptors (`null`/`undefined` and the empty string); for a
truthy object matching none of the recognized shapes it returns the
JavaScript string conversion of the object, the literal
`[object Object]`.  It never raises: the embedded function is total by
construction, mirroring the `try`/`catch` wrapper of the source. -/
theorem unrecognized_shape_fallback :
    getColumnTypeString RawType.nullish = "unknown" ∧
    getColumnTypeString (RawType.str "") = "unknown" ∧
    ∀ (name : Option String) (kt vt et : Option RawType)
      (arr tps : Option (List RawType)),
      nameTruthy name = false →
      infoShape kt vt et arr tps = InfoShape.noShape →
      getColumnTypeString (RawType.obj none name kt vt et arr tps) =
        "[object Object]" := by
  refine ⟨by rw [getColumnTypeString], by rw [getColumnTypeString]; decide, ?_⟩
  intro name kt vt et arr tps hname hshape
  match name with
  | none =>
    rw [getColumnTypeString, hshape, renderShape]
  | some n =>
    simp only [nameTruthy, Bool.not_eq_false'] at hname
    have hn : n = "" := by simpa using hname
    rw [getColumnTypeString, if_pos hn, hshape, renderShape]

/-- Closed witness for the amended C2 statement, at the empty object. -/
theorem unrecognized_shape_fallback_witness :
    nameTruthy none = false ∧
    infoShape none none none none none = InfoShape.noShape ∧
    getColumnTypeString (RawType.obj none none none none none none none) =
      "[object Object]" :=
  ⟨rfl, rfl,
    unrecognized_shape_fallback.2.2 none none none none none none
      rfl rfl⟩

/-- C4: a raw descriptor that is an object with a numeric code field
resolves through the fixed code table, regardless of the name field or
the `info` shape (the code check has priority over them); a code with a
table entry maps to the entry's lowercased canonical name, a code
without one maps to `type_<code>`; and a plain (nonempty) string
descriptor resolves to itself before any code consideration. -/
theorem code_resolution_priority (c : Int) (name : Option String)
    (kt vt et : Option RawType) (arr tps : Option (List RawType)) :
    getColumnTypeString (RawType.obj (some c) name kt vt et arr tps) =
        dataTypeName c ∧
      (∀ p, dataTypes.find? (fun q => q.2 == c) = some p →
        dataTypeName c = lowerString p.1) ∧
      (dataTypes.find? (fun q => q.2 == c) = none →
        dataTypeName c = "type_" ++ toString c) ∧
      (∀ s : String, s ≠ "" → getColumnTypeString (RawType.str s) = s) := by
  refine ⟨by rw [getColumnTypeString], ?_, ?_, ?_⟩
  · intro p hp
    unfold dataTypeName
    rw [hp]
  · intro hp
    unfold dataTypeName
    rw [hp]
  · intro s hs
    rw [getColumnTypeString, if_neg hs]

/-- Closed witness for C4: code 10 resolves to `text` through the
table (here with a name field and an info shape present, exercising the
priority), code 999 has no entry and resolves to `type_999`, and the
plain string `double` resolves to itself. -/
theorem code_resolution_priority_witness :
    getColumnTypeString
        (RawType.obj (some 10) (some "zzz") none none none none none) =
        "text" ∧
      getColumnTypeString (RawType.obj (some 999) none none none none none none) =
        "type_999" ∧
      getColumnTypeString (RawType.str "double") = "double" := by
  have h1 := code_resolution_priority 10 (some "zzz") none none none none none
  have h2 := code_resolution_priority 999 none none none none none none
  refine ⟨?_, ?_, ?_⟩
  · rw [h1.1, h1.2.1 ("text", 10) (by decide)]
    decide
  · rw [h2.1, h2.2.2.1 (by decide)]
    rfl
  · exact h1.2.2.2 "double" (by decide)

/--
A row of `system_schema.key_columns` as consumed by
`ShowTableSchemaTool.execute` (src/src/tools/ShowTableSchemaTool.ts,
lines 51-64): column name, kind (`partition_key` or `clustering`),
position, and the optional clustering-order string (`none` models both
an absent field and a `null` value, which behave identically under the
`?.` access of the source).
-/
structure KeyRow where
  column_name : String
  kind : String
  position : Int
  clustering_order : Option String
deriving Repr, DecidableEq

/-- One insertion step of a stable ascending sort by `position`:
the new row goes after every already-placed row whose position is less
than or equal to its own. -/
def insertByPos (r : KeyRow) : List KeyRow → List KeyRow
  | [] => [r]
  | x :: xs =>
    if x.position ≤ r.position then x :: insertByPos r xs else r :: x :: xs

/-- The source sorts key rows with
`.sort((a, b) => a.position - b.position)`; `Array.prototype.sort` is
required to be stable by the language specification (ES2019), so it is
modelled by a stable insertion sort ascending by `position`. -/
def sortByPos (rows : List KeyRow) : List KeyRow :=
  rows.foldl (fun acc r => insertByPos r acc) []

/-- Charwise ASCII uppercasing; models
`String.prototype.toUpperCase` on clustering-order strings. -/
def upperString (s : String) : String := String.mk (s.data.map Char.toUpper)

/-- The clustering order emitted for one key row:
`key.clustering_order?.toUpperCase() || 'ASC'` — `ASC` exactly when the
field is nullish or its uppercasing is the (falsy) empty string. -/
def clusteringOrderOf (co : Option String) : String :=
  match co with
  | none => "ASC"
  | some s => if upperString s = "" then "ASC" else upperString s

/-- Partition-key classification of `ShowTableSchemaTool.execute`
(lines 51-54): filter to kind `partition_key`, sort ascending by
position, keep only the column names. -/
def partitionKeysOf (keyRows : List KeyRow) : List String :=
  (sortByPos (keyRows.filter (fun k => k.kind == "partition_key"))).map
    (fun k => k.column_name)

/-- Clustering-key classification of `ShowTableSchemaTool.execute`
(lines 56-64): filter to kind `clustering`, sort ascending by position,
map to `(name, order)` pairs. -/
def clusteringKeysOf (keyRows : List KeyRow) : List (String × String) :=
  (sortByPos (keyRows.filter (fun k => k.kind == "clustering"))).map
    (fun k => (k.column_name, clusteringOrderOf k.clustering_order))

/--
A table-option value as it appears on a `system_schema.tables` row.
`null` is JavaScript `null` (`typeof null === 'object'`); `obj` is a
structured map value (`caching`, `compaction`, `compression`);
numbers are modelled at integer precision (decimal rendering of
floating-point option values is outside the scope of this embedding).
-/
inductive OptValue : Type where
  | null : OptValue
  | str : String → OptValue
  | int : Int → OptValue
  | bool : Bool → OptValue
  | obj : List (String × OptValue) → OptValue
deriving Repr

/-- `true` exactly on JavaScript `null`; the non-null filter of the
source (`tableInfo[key] !== null`). -/
def OptValue.isNull : OptValue → Bool
  | .null => true
  | _ => false

/-- JSON string escaping of quote and backslash, as `JSON.stringify`
performs on the key and string values of structured option maps
(control-character escapes do not occur in catalog option values and
are not modelled). -/
def jsonEscape (s : String) : String :=
  String.mk (s.data.foldr
    (fun c acc =>
      if c = '"' then '\\' :: '"' :: acc
      else if c = '\\' then '\\' :: '\\' :: acc
      else c :: acc) [])

/-- `JSON.stringify` on an option value. -/
def jsonStringify : OptValue → String
  | .null => "null"
  | .str s => "\"" ++ jsonEscape s ++ "\""
  | .int n => toString n
  | .bool b => if b then "true" else "false"
  | .obj fields =>
    "\x7b" ++
      String.intercalate ","
        (fields.attach.map fun x =>
          "\"" ++ jsonEscape x.1.1 ++ "\":" ++ jsonStringify x.1.2)
      ++ "\x7d"
termination_by v => sizeOf v
decreasing_by
  simp_wf
  have hm := List.sizeOf_lt_of_mem x.2
  have hx : sizeOf (x : String × OptValue).2 < sizeOf (x : String × OptValue) := by
    obtain ⟨⟨k0, v0⟩, hmem⟩ := x
    simp
  omega

/-- The `snake_case` → `camelCase` conversion of the source,
`key.replace(/_([a-z])/g, (_, letter) => letter.toUpperCase())`:
an underscore directly followed by an ASCII lowercase letter is
replaced by that letter uppercased; an unmatched underscore is kept
and scanning resumes at the next character. -/
def camelChars : List Char → List Char
  | [] => []
  | '_' :: c :: rest =>
    if 'a' ≤ c ∧ c ≤ 'z' then c.toUpper :: camelChars rest
    else '_' :: camelChars (c :: rest)
  | c :: rest => c :: camelChars rest

/-- String form of the `camelCase` conversion. -/
def toCamel (s : String) : String := String.mk (camelChars s.data)

/-- The fixed allow-list `optionsToInclude` of
`ShowTableSchemaTool.execute` (lines 108-110). -/
def allowedOptions : List String :=
  ["bloom_filter_fp_chance", "caching", "comment", "compaction",
   "compression", "crc_check_chance", "default_time_to_live",
   "gc_grace_seconds", "read_repair_chance", "speculative_retry"]

/-- Value formatting of one surfaced option (lines 115-121):
object values render as `JSON.stringify` output with every double
quote replaced by a single quote; string values are single-quoted;
numbers and booleans render as-is.  JavaScript `null` has
`typeof 'object'` and would take the stringify path, but the non-null
filter makes that unreachable. -/
def formatOptValue : OptValue → String
  | .obj fields => (jsonStringify (.obj fields)).replace "\"" "\x27"
  | .null => (jsonStringify .null).replace "\"" "\x27"
  | .str s => "\x27" ++ s ++ "\x27"
  | .int n => toString n
  | .bool b => if b then "true" else "false"

/-- A `system_schema.tables` row, as the ordered entry list that
`Object.entries(tableInfo)` iterates (a JavaScript object has unique
keys, in insertion order). -/
abbrev TableRow := List (String × OptValue)

/-- Option formatting of `ShowTableSchemaTool.execute` (lines 112-127):
keep the entries on the allow-list with non-null values, and render
each as `  <camelCaseKey> = <formattedValue>`. -/
def formatOptions (tableInfo : TableRow) : List String :=
  (tableInfo.filter
    (fun kv => allowedOptions.contains kv.1 && !kv.2.isNull)).map
    (fun kv => "  " ++ toCamel kv.1 ++ " = " ++ formatOptValue kv.2)

/-- A `system_schema.columns` row as used by the synthesizer: column
name and its (string) type, rows arriving in catalog position order
(the source query orders by position). -/
structure ColumnRow where
  column_name : String
  type : String
deriving Repr, DecidableEq

/--
The CREATE TABLE text built by `ShowTableSchemaTool.execute`
(lines 66-138), as the concatenation the source accumulates in
`createStatement`:

1. `CREATE TABLE <keyspace>.<table> (\n`;
2. each column as `  <name> <type>`, comma-newline separated;
3. if any key column exists, `,\n  PRIMARY KEY (` then a single
   partition key bare, several partition keys parenthesized and
   comma-joined, none rendered as nothing; then, if clustering keys
   exist, `, ` and their comma-joined names; then `)`;
4. `\n)`;
5. if clustering keys exist, ` WITH CLUSTERING ORDER BY (...)`;
6. if formatted options exist, ` WITH\n` (no clustering keys) or
   ` AND\n` (clustering keys present), then the options joined by
   ` AND\n`;
7. the terminating `;`.
-/
def buildCreateStatement (keyspaceName tableName : String)
    (tableInfo : TableRow) (columnRows : List ColumnRow)
    (keyRows : List KeyRow) : String :=
  let partitionKeys := partitionKeysOf keyRows
  let clusteringKeys := clusteringKeysOf keyRows
  let columnsPart :=
    String.intercalate ",\n"
      (columnRows.map (fun col => "  " ++ col.column_name ++ " " ++ col.type))
  let primaryKeyClause :=
    if 0 < partitionKeys.length ∨ 0 < clusteringKeys.length then
      ",\n  PRIMARY KEY (" ++
        (if partitionKeys.length = 1 then partitionKeys.headD ""
         else if 1 < partitionKeys.length then
           "(" ++ String.intercalate ", " partitionKeys ++ ")"
         else "") ++
        (if 0 < clusteringKeys.length then
           ", " ++ String.intercalate ", " (clusteringKeys.map (fun k => k.1))
         else "") ++ ")"
    else ""
  let clusteringClause :=
    if 0 < clusteringKeys.length then
      " WITH CLUSTERING ORDER BY (" ++
        String.intercalate ", "
          (clusteringKeys.map (fun k => k.1 ++ " " ++ k.2)) ++ ")"
    else ""
  let tableOptions := formatOptions tableInfo
  let optionsClause :=
    if 0 < tableOptions.length then
      (if clusteringKeys.length = 0 then " WITH\n" else " AND\n") ++
        String.intercalate " AND\n" tableOptions
    else ""
  "CREATE TABLE " ++ keyspaceName ++ "." ++ tableName ++ " (\n" ++
    columnsPart ++ primaryKeyClause ++ "\n)" ++ clusteringClause ++
    optionsClause ++ ";"

/-- The three structurally distinct results `ShowTableSchemaTool.execute`
produces on already-fetched rows: the not-found message (table check
returns zero rows), the no-columns message, and the synthesized
statement. -/
inductive SchemaResult : Type where
  | notFound : String → SchemaResult
  | noColumns : String → SchemaResult
  | schema : String → SchemaResult
deriving Repr, DecidableEq

/-- `ShowTableSchemaTool.execute` (lines 25-140) on already-fetched
catalog rows: an empty table-check row set reports not-found
(line 32-34), an empty column row set reports the no-columns condition
(lines 42-44), otherwise the statement is synthesized from the first
table row, the columns and the key rows. -/
def showTableSchema (keyspaceName tableName : String)
    (tableRows : List TableRow) (columnRows : List ColumnRow)
    (keyRows : List KeyRow) : SchemaResult :=
  if tableRows.isEmpty then
    .notFound ("Table \x27" ++ keyspaceName ++ "." ++ tableName ++
      "\x27 not found.")
  else if columnRows.isEmpty then
    .noColumns ("No columns found for table \x27" ++ keyspaceName ++ "." ++
      tableName ++ "\x27.")
  else
    .schema (buildCreateStatement keyspaceName tableName
      (tableRows.headD []) columnRows keyRows)

/-- Membership in an insertion step: exactly the inserted row plus the
rows already present. -/
theorem mem_insertByPos {x r : KeyRow} : ∀ {l : List KeyRow},
    x ∈ insertByPos r l ↔ x = r ∨ x ∈ l
  | [] => by simp [insertByPos]
  | y :: ys => by
    rw [insertByPos]
    split_ifs with hle
    · rw [List.mem_cons, mem_insertByPos (l := ys), List.mem_cons]
      tauto
    · simp only [List.mem_cons]

/-- An insertion step preserves ascending position order. -/
theorem insertByPos_sorted {r : KeyRow} : ∀ {l : List KeyRow},
    l.Pairwise (fun a b => a.position ≤ b.position) →
    (insertByPos r l).Pairwise (fun a b => a.position ≤ b.position)
  | [], _ => by simp [insertByPos]
  | y :: ys, h => by
    rw [insertByPos]
    rcases List.pairwise_cons.mp h with ⟨hy, hys⟩
    split_ifs with hle
    · refine List.pairwise_cons.mpr ⟨?_, insertByPos_sorted hys⟩
      intro z hz
      rcases mem_insertByPos.mp hz with rfl | hzys
      · exact hle
      · exact hy z hzys
    · refine List.pairwise_cons.mpr ⟨?_, h⟩
      intro z hz
      rcases List.mem_cons.mp hz with rfl | hzys
      · omega
      · have := hy z hzys
        omega

/-- Stability of one insertion step: among the rows of any one position
value, the inserted row lands last, and the rest keep their order. -/
theorem insertByPos_filter {r : KeyRow} {p : Int} : ∀ {l : List KeyRow},
    l.Pairwise (fun a b => a.position ≤ b.position) →
    (insertByPos r l).filter (fun x => x.position == p) =
      (if r.position == p
       then l.filter (fun x => x.position == p) ++ [r]
       else l.filter (fun x => x.position == p))
  | [], _ => by
    by_cases hrp : (r.position == p) = true <;>
      simp [insertByPos, List.filter_cons, hrp]
  | y :: ys, h => by
    rcases List.pairwise_cons.mp h with ⟨hy, hys⟩
    rw [insertByPos]
    by_cases hle : y.position ≤ r.position
    · rw [if_pos hle, List.filter_cons, insertByPos_filter hys]
      by_cases hrp : (r.position == p) = true <;>
        by_cases hyp : (y.position == p) = true <;>
        simp [hrp, hyp, List.filter_cons]
    · rw [if_neg hle, List.filter_cons]
      by_cases hrp : (r.position == p) = true
      · have hempty : (y :: ys).filter (fun x => x.position == p) = [] := by
          rw [List.filter_eq_nil_iff]
          intro a ha
          have hay : y.position ≤ a.position := by
            rcases List.mem_cons.mp ha with rfl | hays
            · omega
            · exact hy a hays
          simp only [beq_iff_eq] at hrp ⊢
          omega
        simp [hrp, hempty]
      · simp [hrp]

/-- Membership in the stable sort over any accumulator. -/
theorem mem_sortByPos_aux {x : KeyRow} : ∀ (rows acc : List KeyRow),
    x ∈ rows.foldl (fun a r => insertByPos r a) acc ↔ x ∈ acc ∨ x ∈ rows
  | [], acc => by simp
  | r :: rest, acc => by
    rw [List.foldl_cons, mem_sortByPos_aux rest, mem_insertByPos]
    simp only [List.mem_cons]
    tauto

/-- The stable sort is a permutation (as membership) of its input. -/
theorem mem_sortByPos {x : KeyRow} {rows : List KeyRow} :
    x ∈ sortByPos rows ↔ x ∈ rows := by
  rw [sortByPos, mem_sortByPos_aux]
  simp

/-- The stable sort sorts ascending by position, over any sorted
accumulator. -/
theorem sortByPos_aux_sorted : ∀ (rows acc : List KeyRow),
    acc.Pairwise (fun a b => a.position ≤ b.position) →
    (rows.foldl (fun a r => insertByPos r a) acc).Pairwise
      (fun a b => a.position ≤ b.position)
  | [], _, h => h
  | r :: rest, acc, h =>
    sortByPos_aux_sorted rest (insertByPos r acc) (insertByPos_sorted h)

/-- The stable sort sorts ascending by position. -/
theorem sortByPos_sorted (rows : List KeyRow) :
    (sortByPos rows).Pairwise (fun a b => a.position ≤ b.position) :=
  sortByPos_aux_sorted rows [] (by simp)

/-- Filter-level stability over any sorted accumulator. -/
theorem sortByPos_aux_filter {p : Int} : ∀ (rows acc : List KeyRow),
    acc.Pairwise (fun a b => a.position ≤ b.position) →
    (rows.foldl (fun a r => insertByPos r a) acc).filter
        (fun x => x.position == p) =
      acc.filter (fun x => x.position == p) ++
        rows.filter (fun x => x.position == p)
  | [], acc, _ => by simp
  | r :: rest, acc, h => by
    rw [List.foldl_cons,
      sortByPos_aux_filter rest (insertByPos r acc) (insertByPos_sorted h),
      insertByPos_filter h, List.filter_cons]
    by_cases hrp : (r.position == p) = true <;> simp [hrp]

/-- Stability of the stable sort: the subsequence of rows carrying any
one position value is exactly the input subsequence with that value, in
input order. -/
theorem sortByPos_filter_stable {p : Int} (rows : List KeyRow) :
    (sortByPos rows).filter (fun x => x.position == p) =
      rows.filter (fun x => x.position == p) := by
  rw [sortByPos, sortByPos_aux_filter rows [] (by simp)]
  simp

/-- Uppercasing a string yields the empty string exactly on the empty
string (the falsiness guard of `|| 'ASC'`). -/
theorem upperString_eq_empty_iff {s : String} : upperString s = "" ↔ s = "" := by
  constructor
  · intro h
    have hd := congrArg String.data h
    simp only [upperString] at hd
    cases s with
    | mk data =>
      cases data <;> simp_all
  · intro h
    rw [h]
    rfl

/-- C1: on keyspace `ks`, table `t`, columns `id uuid`, `ts timestamp`,
`value double` in catalog order, partition key `id` at position 0 and
clustering key `ts` at position 0 with order `DESC`, and a table row
with no surfaced options, synthesis produces exactly the claimed text:
two-space column indentation, comma-newline separators, the single
partition key bare, the clustering name inside PRIMARY KEY without
direction, the direction only in CLUSTERING ORDER BY, and a terminating
semicolon. -/
theorem createStatement_example :
    showTableSchema "ks" "t" [[]]
      [⟨"id", "uuid"⟩, ⟨"ts", "timestamp"⟩, ⟨"value", "double"⟩]
      [⟨"id", "partition_key", 0, none⟩,
       ⟨"ts", "clustering", 0, some "DESC"⟩] =
      SchemaResult.schema
        ("CREATE TABLE ks.t (\n  id uuid,\n  ts timestamp,\n  value double,\n  PRIMARY KEY (id, ts)\n) WITH CLUSTERING ORDER BY (ts DESC);") :=
  rfl

/-- C7 counterexample: a clustering row whose order field holds the
unrecognized string `xyz` is emitted with order `XYZ` — the field
uppercased and passed through — not the claimed default `ASC`. -/
theorem clustering_order_unrecognized_not_asc :
    clusteringKeysOf [⟨"c", "clustering", 0, some "xyz"⟩] = [("c", "XYZ")] ∧
      ("XYZ" : String) ≠ "ASC" := by
  constructor
  · rfl
  · decide

/-- C7 amended: partition keys are the position-sorted names of the
`partition_key` rows and clustering keys the position-sorted
`(name, order)` pairs of the `clustering` rows, both sorted ascending
by position; the emitted order is the row's order string uppercased
when the field is present and nonempty, and defaults to `ASC` when the
field is absent (or null) or empty. -/
theorem key_classification (rows : List KeyRow) :
    partitionKeysOf rows =
        (sortByPos (rows.filter (fun k => k.kind == "partition_key"))).map
          (fun k => k.column_name) ∧
      clusteringKeysOf rows =
        (sortByPos (rows.filter (fun k => k.kind == "clustering"))).map
          (fun k => (k.column_name, clusteringOrderOf k.clustering_order)) ∧
      (sortByPos (rows.filter (fun k => k.kind == "partition_key"))).Pairwise
        (fun a b => a.position ≤ b.position) ∧
      (sortByPos (rows.filter (fun k => k.kind == "clustering"))).Pairwise
        (fun a b => a.position ≤ b.position) ∧
      clusteringOrderOf none = "ASC" ∧
      clusteringOrderOf (some "") = "ASC" ∧
      ∀ s : String, s ≠ "" → clusteringOrderOf (some s) = upperString s := by
  refine ⟨rfl, rfl, sortByPos_sorted _, sortByPos_sorted _, rfl, rfl, ?_⟩
  intro s hs
  rw [clusteringOrderOf,
    if_neg (fun hc => hs (upperString_eq_empty_iff.mp hc))]

/-- Closed witness for the amended C7 statement, on two clustering rows
given out of position order with a present order and an absent one. -/
theorem key_classification_witness :
    clusteringKeysOf
        [⟨"b", "clustering", 1, none⟩, ⟨"a", "clustering", 0, some "desc"⟩] =
        [("a", "DESC"), ("b", "ASC")] ∧
      ("desc" : String) ≠ "" ∧
      clusteringOrderOf (some "desc") = upperString "desc" := by
  refine ⟨by rfl, by decide, ?_⟩
  exact (key_classification []).2.2.2.2.2.2 "desc" (by decide)

/-- C9: classification of key rows containing duplicate positions
within a kind does not crash (the embedded classification is total),
is deterministic (repeated runs coincide), and is stable: within each
kind, the rows carrying any one position value keep their relative
input order after the position sort. -/
theorem classification_stable (rows : List KeyRow)
    (_hdup : ∃ i : Fin rows.length, ∃ j : Fin rows.length, i.1 < j.1 ∧
      (rows.get i).kind = (rows.get j).kind ∧
      (rows.get i).position = (rows.get j).position) :
    (partitionKeysOf rows = partitionKeysOf rows ∧
        clusteringKeysOf rows = clusteringKeysOf rows) ∧
      ∀ (kind : String) (p : Int),
        (sortByPos (rows.filter (fun r => r.kind == kind))).filter
            (fun r => r.position == p) =
          (rows.filter (fun r => r.kind == kind)).filter
            (fun r => r.position == p) :=
  ⟨⟨rfl, rfl⟩, fun _ _ => sortByPos_filter_stable _⟩

/-- Closed witness for C9, on two clustering rows sharing position 0:
the sorted filter at position 0 keeps their input order. -/
theorem classification_stable_witness :
    (∃ i : Fin 2, ∃ j : Fin 2, i.1 < j.1 ∧
      (([⟨"b", "clustering", 0, none⟩,
         ⟨"a", "clustering", 0, none⟩] : List KeyRow).get i).kind =
        (([⟨"b", "clustering", 0, none⟩,
           ⟨"a", "clustering", 0, none⟩] : List KeyRow).get j).kind ∧
      (([⟨"b", "clustering", 0, none⟩,
         ⟨"a", "clustering", 0, none⟩] : List KeyRow).get i).position =
        (([⟨"b", "clustering", 0, none⟩,
           ⟨"a", "clustering", 0, none⟩] : List KeyRow).get j).position) ∧
      (sortByPos (([⟨"b", "clustering", 0, none⟩,
          ⟨"a", "clustering", 0, none⟩] : List KeyRow).filter
            (fun r => r.kind == "clustering"))).filter
          (fun r => r.position == 0) =
        (([⟨"b", "clustering", 0, none⟩,
           ⟨"a", "clustering", 0, none⟩] : List KeyRow).filter
             (fun r => r.kind == "clustering")).filter
          (fun r => r.position == 0) :=
  ⟨⟨⟨0, by decide⟩, ⟨1, by decide⟩, by decide, by decide, by decide⟩,
    (classification_stable
      [⟨"b", "clustering", 0, none⟩, ⟨"a", "clustering", 0, none⟩]
      ⟨⟨0, by decide⟩, ⟨1, by decide⟩, by decide, by decide, by decide⟩).2
      "clustering" 0⟩

/-- C3: given the table exists (the table check returned rows), the
operation reports the dedicated no-columns condition exactly when zero
column rows exist — with the specific message, not a generic error —
and with at least one column row it always produces a synthesized
statement. -/
theorem synthesis_fails_only_on_empty_columns (keyspaceName tableName : String)
    (tableRows : List TableRow) (columnRows : List ColumnRow)
    (keyRows : List KeyRow) (htable : tableRows ≠ []) :
    (columnRows = [] ↔
      showTableSchema keyspaceName tableName tableRows columnRows keyRows =
        SchemaResult.noColumns ("No columns found for table \x27" ++
          keyspaceName ++ "." ++ tableName ++ "\x27.")) ∧
    (columnRows ≠ [] →
      showTableSchema keyspaceName tableName tableRows columnRows keyRows =
        SchemaResult.schema (buildCreateStatement keyspaceName tableName
          (tableRows.headD []) columnRows keyRows)) := by
  have ht : tableRows.isEmpty = false := by
    cases tableRows
    · exact absurd rfl htable
    · rfl
  constructor
  · constructor
    · intro hc
      rw [showTableSchema, ht, hc]
      rfl
    · intro hres
      cases hcol : columnRows with
      | nil => rfl
      | cons c cs =>
        rw [showTableSchema, ht, hcol] at hres
        simp at hres
  · intro hc
    have hcc : columnRows.isEmpty = false := by
      cases columnRows
      · exact absurd rfl hc
      · rfl
    rw [showTableSchema, ht, hcc]
    simp

/-- Closed witness for C3, at a concrete existing table: zero column
rows yield the no-columns condition. -/
theorem synthesis_fails_only_on_empty_columns_witness :
    ([[]] : List TableRow) ≠ [] ∧
      showTableSchema "ks" "t" [[]] [] [] =
        SchemaResult.noColumns "No columns found for table \x27ks.t\x27." :=
  ⟨by simp,
    (synthesis_fails_only_on_empty_columns "ks" "t" [[]] [] []
      (by simp)).1.mp rfl⟩

/-- C5: with two or more partition keys and no clustering keys, the
statement carries a PRIMARY KEY clause whose partition keys are
parenthesized and comma-joined inside the outer parenthesis — the
clause text is `,\n  PRIMARY KEY (` followed by `(<pk1>, <pk2>, ...)`
and the closing `)` — and no CLUSTERING ORDER BY clause appears (the
clause between `\n)` and the options is absent, and options are
introduced by ` WITH\n`). -/
theorem composite_partition_key_rendering (keyspaceName tableName : String)
    (tableInfo : TableRow) (columnRows : List ColumnRow) (keyRows : List KeyRow)
    (hpk : 1 < (partitionKeysOf keyRows).length)
    (hck : clusteringKeysOf keyRows = []) :
    buildCreateStatement keyspaceName tableName tableInfo columnRows keyRows =
      "CREATE TABLE " ++ keyspaceName ++ "." ++ tableName ++ " (\n" ++
        String.intercalate ",\n"
          (columnRows.map
            (fun col => "  " ++ col.column_name ++ " " ++ col.type)) ++
        (",\n  PRIMARY KEY (" ++
          ("(" ++ String.intercalate ", " (partitionKeysOf keyRows) ++ ")") ++
          ")") ++
        "\n)" ++
        (if 0 < (formatOptions tableInfo).length then
          " WITH\n" ++ String.intercalate " AND\n" (formatOptions tableInfo)
         else "") ++ ";" := by
  simp only [buildCreateStatement, hck, List.length_nil, List.map_nil]
  split_ifs <;> first
    | omega
    | simp [String.append_assoc]

/-- Closed witness for C5: two partition keys and no clustering keys
render as `PRIMARY KEY ((p1, p2))` with no CLUSTERING ORDER BY. -/
theorem composite_partition_key_rendering_witness :
    buildCreateStatement "ks" "t" [] [⟨"a", "int"⟩]
        [⟨"p1", "partition_key", 0, none⟩, ⟨"p2", "partition_key", 1, none⟩] =
      "CREATE TABLE ks.t (\n  a int,\n  PRIMARY KEY ((p1, p2))\n);" := by
  have h := composite_partition_key_rendering "ks" "t" [] [⟨"a", "int"⟩]
    [⟨"p1", "partition_key", 0, none⟩, ⟨"p2", "partition_key", 1, none⟩]
    (by decide) (by decide)
  rw [h]
  rfl

/-- C10: with an empty partition-key list but nonempty clustering keys,
synthesis still emits a PRIMARY KEY clause with an empty partition-key
group: directly after `PRIMARY KEY (` comes `, ` and the clustering
names (e.g. `PRIMARY KEY (, ts)`), rather than omitting the clause or
failing. -/
theorem empty_partition_key_group_rendering (keyspaceName tableName : String)
    (tableInfo : TableRow) (columnRows : List ColumnRow) (keyRows : List KeyRow)
    (hpk : partitionKeysOf keyRows = [])
    (hck : clusteringKeysOf keyRows ≠ []) :
    buildCreateStatement keyspaceName tableName tableInfo columnRows keyRows =
      "CREATE TABLE " ++ keyspaceName ++ "." ++ tableName ++ " (\n" ++
        String.intercalate ",\n"
          (columnRows.map
            (fun col => "  " ++ col.column_name ++ " " ++ col.type)) ++
        (",\n  PRIMARY KEY (" ++
          (", " ++ String.intercalate ", "
            ((clusteringKeysOf keyRows).map (fun k => k.1))) ++ ")") ++
        "\n)" ++
        (" WITH CLUSTERING ORDER BY (" ++
          String.intercalate ", "
            ((clusteringKeysOf keyRows).map (fun k => k.1 ++ " " ++ k.2)) ++
          ")") ++
        (if 0 < (formatOptions tableInfo).length then
          " AND\n" ++ String.intercalate " AND\n" (formatOptions tableInfo)
         else "") ++ ";" := by
  have hl : 0 < (clusteringKeysOf keyRows).length := List.length_pos.mpr hck
  simp only [buildCreateStatement, hpk, List.length_nil, List.map_nil]
  split_ifs <;> first
    | omega
    | simp [String.append_assoc]

/-- Closed witness for C10: a lone clustering key with no partition key
renders as `PRIMARY KEY (, c1)`. -/
theorem empty_partition_key_group_rendering_witness :
    buildCreateStatement "ks" "t" [] [⟨"a", "int"⟩]
        [⟨"c1", "clustering", 0, none⟩] =
      "CREATE TABLE ks.t (\n  a int,\n  PRIMARY KEY (, c1)\n) WITH CLUSTERING ORDER BY (c1 ASC);" := by
  have h := empty_partition_key_group_rendering "ks" "t" [] [⟨"a", "int"⟩]
    [⟨"c1", "clustering", 0, none⟩] (by decide) (by decide)
  rw [h]
  rfl

/-- C6: a formatted option line exists exactly for the table-row
entries whose key is on the fixed allow-list and whose value is
non-null, rendered as two spaces, the snake_case key converted to
camelCase, ` = `, and the formatted value (strings single-quoted,
objects as brace literals with double quotes replaced by single
quotes, numbers and booleans as-is); in particular a null `comment`
is omitted entirely and comment `hello` maps to `'hello'`. -/
theorem options_allow_list (tableInfo : TableRow) (entry : String) :
    (entry ∈ formatOptions tableInfo ↔
      ∃ kv, kv ∈ tableInfo ∧ kv.1 ∈ allowedOptions ∧ kv.2.isNull = false ∧
        entry = "  " ++ toCamel kv.1 ++ " = " ++ formatOptValue kv.2) ∧
    formatOptions [("comment", OptValue.null)] = [] ∧
    formatOptions [("comment", OptValue.str "hello")] =
      ["  comment = \x27hello\x27"] := by
  refine ⟨?_, rfl, rfl⟩
  rw [formatOptions, List.mem_map]
  constructor
  · rintro ⟨kv, hkv, rfl⟩
    rw [List.mem_filter] at hkv
    rcases hkv with ⟨hmem, hcond⟩
    rw [Bool.and_eq_true] at hcond
    rcases hcond with ⟨h1, h2⟩
    rw [List.contains_eq_any_beq] at h1
    rw [List.any_eq_true] at h1
    rcases h1 with ⟨a, ha, hbeq⟩
    have h1m : kv.1 ∈ allowedOptions := by
      rw [beq_iff_eq] at hbeq
      rw [hbeq]
      exact ha
    rw [Bool.not_eq_true'] at h2
    exact ⟨kv, hmem, h1m, h2, rfl⟩
  · rintro ⟨kv, hmem, hallow, hnull, rfl⟩
    refine ⟨kv, ?_, rfl⟩
    rw [List.mem_filter]
    refine ⟨hmem, ?_⟩
    rw [Bool.and_eq_true]
    constructor
    · rw [List.contains_eq_any_beq, List.any_eq_true]
      exact ⟨kv.1, hallow, beq_self_eq_true kv.1⟩
    · rw [Bool.not_eq_true', hnull]

/-- Closed witness for C6: the surfaced `comment = 'hello'` line is
produced from the allow-listed, non-null comment entry. -/
theorem options_allow_list_witness :
    "  comment = \x27hello\x27" ∈
      formatOptions [("comment", OptValue.str "hello")] :=
  (options_allow_list [("comment", OptValue.str "hello")]
      "  comment = \x27hello\x27").1.mpr
    ⟨("comment", OptValue.str "hello"), by simp, by decide, rfl, rfl⟩
